import Mathlib

/-!
Verification of the mmrobot radar capture pipeline against its specification.

The development shallowly embeds the capture-loop orchestrator
(`Radar.run_polling`, `Radar.save_frames`, `Radar.read` in
`src/iwr1443/radar.py`), the publisher wiring (`DCAPub` in
`src/iwr1443/dcapub.py`), and the frame reassembly buffer (`FrameBuffer`,
whose implementation file is not part of the snapshot and is therefore
modelled from the specification).

Machine conventions:
* wall-clock instants (`time.time()` / `datetime.now()`) are modelled as
  natural numbers counting microseconds since the epoch;
* a radar frame is a list of 16-bit signed samples, modelled as `List Int`;
* the capture loop is driven by a trace of externally observable events
  (`Ev`): each loop iteration consumes one event describing what
  `DCAPub.update_frame_buffer` / the operator did at that iteration.
-/

namespace MMR

/-- Wall-clock instant, microseconds since the epoch (models `time.time()`
and `datetime.now()` read at the same moment). -/
abbrev Time := Nat

/-- One radar frame's worth of 16-bit signed ADC samples (the `frame_data`
value produced by the frame buffer). -/
abbrev FrameData := List Int

/-- What one iteration of the polling loop observes.

* `Ev.data newf fd t`: `self.radar.update_frame_buffer()` returned
  `(frame_data, new_frame)` with `new_frame = newf` and `frame_data = fd`;
  the wall clock read at that iteration is `t`.
* `Ev.timeout t`: `update_frame_buffer` raised `socket.timeout`
  (re-raised from `DCAPub.update_frame_buffer`, dcapub.py lines 83-89).
* `Ev.interrupt`: the operator pressed Ctrl-C, so `KeyboardInterrupt` is
  raised at this iteration. -/
inductive Ev where
  | data (newf : Bool) (fd : FrameData) (t : Time)
  | timeout (t : Time)
  | interrupt
deriving DecidableEq, Repr

/-- Externally visible side effects of `Radar.run_polling`, in order.

* `flush` — `self.radar.dca1000.flush_data_socket()` (radar.py line 55);
* `ingest` — one call to `self.radar.update_frame_buffer()`, i.e. one
  datagram receive fed to the assembler;
* `save` — the `self.save_frames(...)` call after the loop;
* `close` — `self.close()` in the `KeyboardInterrupt` handler. -/
inductive Action where
  | flush
  | ingest
  | save
  | close
deriving DecidableEq, Repr

/-- How a `run_polling` session ends, together with the loop state at that
point (`frames` collected so far, latched `capture_start_time`).

* `completed` — the `while` condition failed: `len(frames) == n_frames`,
  so `save_frames` runs;
* `interrupted` — `KeyboardInterrupt` was caught: `self.close()` runs and
  nothing is saved;
* `timedOutError` — `socket.timeout` propagated out of the loop: the
  `try` block only catches `KeyboardInterrupt`, so the exception escapes
  `run_polling`, nothing is saved and the socket is not closed;
* `exhausted` — the event trace ended while the loop was still waiting
  for the next datagram (model artifact: the real loop would block). -/
inductive Outcome where
  | completed (frames : List FrameData) (cst : Option Time)
  | interrupted (frames : List FrameData) (cst : Option Time)
  | timedOutError (frames : List FrameData) (cst : Option Time)
  | exhausted (frames : List FrameData) (cst : Option Time)
deriving DecidableEq, Repr

/-- The latched `capture_start_time` carried by an outcome. -/
def Outcome.cst : Outcome → Option Time
  | .completed _ c => c
  | .interrupted _ c => c
  | .timedOutError _ c => c
  | .exhausted _ c => c

/-- The `frames` list carried by an outcome. -/
def Outcome.frames : Outcome → List FrameData
  | .completed f _ => f
  | .interrupted f _ => f
  | .timedOutError f _ => f
  | .exhausted f _ => f

/-- The `while len(frames) < self.params['n_frames']` loop of
`Radar.run_polling` (radar.py lines 64-80), with the surrounding
`try/except KeyboardInterrupt`.  Arguments mirror the Python state:
`target` is `self.params['n_frames']`, `frames` the accumulator list and
`cst` the latched `self.capture_start_time` (`none` = Python `None`).
Returns the outcome together with the trace of side effects emitted from
this point on. -/
def run_polling_go (target : Nat) (evs : List Ev) (frames : List FrameData)
    (cst : Option Time) : Outcome × List Action :=
  if target ≤ frames.length then
    (.completed frames cst, [Action.save])
  else
    match evs with
    | [] => (.exhausted frames cst, [])
    | Ev.interrupt :: _ => (.interrupted frames cst, [Action.close])
    | Ev.timeout _ :: _ => (.timedOutError frames cst, [])
    | Ev.data newf fd t :: rest =>
        let r := run_polling_go target rest
          (if newf then frames ++ [fd] else frames)
          (if newf && frames.isEmpty then some t else cst)
        (r.1, Action.ingest :: r.2)

/-- Model of `Radar.run_polling` (radar.py lines 53-80): flush the data socket
first, then run the collection loop from the empty state. -/
def run_polling (target : Nat) (evs : List Ev) : Outcome × List Action :=
  let r := run_polling_go target evs [] none
  (r.1, Action.flush :: r.2)

/-- The acquisition parameters `Radar` reads from `self.params`
(parsed by `RadarConfig` from the .lua file; only the fields
`radar.py` uses are modelled). -/
structure RadarParams where
  n_frames : Nat
  n_samples : Nat
  n_chirps : Nat
  n_rx : Nat
  n_tx : Nat
  frame_size : Nat
  periodicity : Nat
  sweep_time : Nat
deriving DecidableEq, Repr

/-- The dataset-identity fields of a `Radar` instance used by
`save_frames` to build the output paths (radar.py lines 36-41, 90-105). -/
structure RadarIdent where
  stamped_data_path : String
  obj_id : String
  obj_name : String
  angles : Int × Int × Int
  exp_num : Nat
  is_los : Bool
deriving DecidableEq, Repr

/-- Folder built with `os.path.join`:
`{stamped_data_path}/{obj_id}_{obj_name}/robot_collected/{x}_{y}_{z}/exp{N}/{los|nlos}/unprocessed/radars/radar_data`
(radar.py lines 95-105). -/
def base_path (r : RadarIdent) : String :=
  r.stamped_data_path ++ "/" ++ r.obj_id ++ "_" ++ r.obj_name ++
    "/robot_collected/" ++ toString r.angles.1 ++ "_" ++
    toString r.angles.2.1 ++ "_" ++ toString r.angles.2.2 ++
    "/exp" ++ toString r.exp_num ++ "/" ++
    (if r.is_los then "los" else "nlos") ++
    "/unprocessed/radars/radar_data"

/-- Model of `datetime.fromtimestamp(capture_start_time).strftime("%Y%m%d%H%M%S")`
(radar.py lines 116-117): with the timezone fixed, the compact stamp is
determined by the whole seconds of the instant.  Modelled as the decimal
rendering of the instant truncated to seconds. -/
def timestamp_compact_of (t : Time) : String :=
  toString (t / 1000000)

/-- Path `f"adc_data{timestamp_compact}.bin"` inside `base_path`
(radar.py line 119). -/
def bin_filename (r : RadarIdent) (ts : String) : String :=
  base_path r ++ "/adc_data" ++ ts ++ ".bin"

/-- Path `os.path.join(base_path, "..", "metadata.json")` (radar.py line 126):
a fixed name in the parent of `radar_data`, with no timestamp component. -/
def metadata_path (r : RadarIdent) : String :=
  base_path r ++ "/../metadata.json"

/-- Little-endian byte pair of one 16-bit signed sample, as written by
`np.asarray(all_frames, dtype="<i2").tofile(f)` (radar.py lines 112-121):
the sample reduced to 16 bits two's complement, low byte first. -/
def int16le (v : Int) : List Nat :=
  [(v.emod 65536).toNat % 256, (v.emod 65536).toNat / 256]

/-- The bytes one frame contributes to the .bin file: each sample in
order, two bytes each, little endian. -/
def frame_bytes (f : FrameData) : List Nat :=
  (f.map int16le).flatten

/-- The full contents of the .bin file: `np.concatenate(frames, axis=0)`
flattens the frames in list order, then every sample is written as
little-endian int16 with no header (radar.py lines 108-121). -/
def raw_bytes_of (frames : List FrameData) : List Nat :=
  ((frames.flatten).map int16le).flatten

/-- The metadata record written to `metadata.json`
(radar.py lines 127-138).  `datetime_strftime` is the formatted
`datetime_start_time`; since `run_polling` latches both clocks at the
same instant it is modelled as that instant itself. -/
structure Metadata where
  capture_start_time : Time
  timestamp_compact : String
  datetime_strftime : Time
  num_frames : Nat
  num_samples : Nat
  num_chirps : Nat
  num_rx : Nat
  num_tx : Nat
  periodicity : Nat
  sweep_time : Nat
deriving DecidableEq, Repr

/-- Everything `Radar.save_frames` writes: the .bin path and contents,
and the metadata.json path and record. -/
structure SaveResult where
  bin_file : String
  rawBytes : List Nat
  meta_file : String
  metadata : Metadata
deriving DecidableEq, Repr

/-- Model of `Radar.save_frames(frames, datetime_start_time, capture_start_time)`
(radar.py lines 82-143), for a nonempty `frames` list and a latched
instant `t` (= `capture_start_time`, with `datetime_start_time` read at
the same moment in `run_polling`). -/
def save_frames (p : RadarParams) (r : RadarIdent) (frames : List FrameData)
    (t : Time) : SaveResult :=
  { bin_file := bin_filename r (timestamp_compact_of t)
  , rawBytes := raw_bytes_of frames
  , meta_file := metadata_path r
  , metadata :=
    { capture_start_time := t
    , timestamp_compact := timestamp_compact_of t
    , datetime_strftime := t
    , num_frames := frames.length
    , num_samples := p.n_samples
    , num_chirps := p.n_chirps
    , num_rx := p.n_rx
    , num_tx := p.n_tx
    , periodicity := p.periodicity
    , sweep_time := p.sweep_time } }

/-- What a finished session persists.  Only the `completed` outcome
reaches `save_frames` (radar.py line 76).  A completed session with zero
frames would crash inside `np.concatenate([])` before writing anything,
and one with `capture_start_time = None` would crash in
`datetime.fromtimestamp(None)`; both produce no artifact and are
unreachable for a positive target. -/
def saved_output (p : RadarParams) (r : RadarIdent) : Outcome → Option SaveResult
  | .completed frames (some t) =>
      if frames.isEmpty then none else some (save_frames p r frames t)
  | _ => none

/-- The wall clock of the first completed frame the loop would process:
the time carried by the first `new_frame = true` event, scanning the
trace in order and stopping at an abort event. -/
def first_frame_time : List Ev → Option Time
  | [] => none
  | Ev.data true _ t :: _ => some t
  | Ev.data false _ _ :: rest => first_frame_time rest
  | Ev.timeout _ :: _ => none
  | Ev.interrupt :: _ => none

/-- Modelled from the spec: the reassembly ring of `FrameBuffer`
(`src/iwr1443/frame_buffer.py` is not part of the snapshot; spec §3
AssemblyBuffer, §4.2 FrameAssembler).  `ring` holds one byte per index
in `[0, ring_size)`, zero elsewhere by convention; `cursor` is the
monotonically increasing highest byte offset written. -/
structure FrameBuffer where
  ring_size : Nat
  frame_size : Nat
  ring : Nat → Nat
  cursor : Nat

/-- Modelled from the spec: a freshly constructed `FrameBuffer`
(spec §3: bytes not yet written are zero). -/
def FrameBuffer.init (ringSize frameSize : Nat) : FrameBuffer :=
  { ring_size := ringSize, frame_size := frameSize
  , ring := fun _ => 0, cursor := 0 }

/-- The constructor `DCAPub.__init__` builds its frame buffer as
`FrameBuffer(2 * self.params["frame_size"], self.params["frame_size"])`
(dcapub.py lines 79-81). -/
def dcapub_frame_buffer (p : RadarParams) : FrameBuffer :=
  FrameBuffer.init (2 * p.frame_size) p.frame_size

/-- Modelled from the spec: copying one payload into the ring byte by
byte at its declared offset modulo the ring size (spec §4.2: "copy its
payload into the ring at the computed offset (wrapping)", last write
wins). -/
def write_ring (ringSize : Nat) (ring : Nat → Nat) : Nat → List Nat → Nat → Nat
  | _, [] => ring
  | o, b :: rest => write_ring ringSize (Function.update ring (o % ringSize) b) (o + 1) rest

/-- Modelled from the spec: `FrameBuffer.add_msg`, the assembler's
`ingest(datagram) -> (frame | none, boundaryCrossed)` (spec §4.2).
A datagram whose declared offset lies more than one ring size behind
the cursor is stale and dropped; otherwise its payload is written into
the ring and the cursor advances monotonically to the end of the
furthest byte written.  When the cursor crosses a frame-size boundary
the window just closed is copied out of the ring as the completed
frame. -/
def FrameBuffer.add_msg (fb : FrameBuffer) (offset : Nat) (payload : List Nat) :
    FrameBuffer × Option (List Nat) :=
  if offset + fb.ring_size < fb.cursor then (fb, none)
  else
    let ring := write_ring fb.ring_size fb.ring offset payload
    let cursor := max fb.cursor (offset + payload.length)
    let fb' : FrameBuffer := { fb with ring := ring, cursor := cursor }
    if fb.cursor / fb.frame_size < cursor / fb.frame_size then
      let k := cursor / fb.frame_size - 1
      (fb', some ((List.range fb.frame_size).map
        fun i => ring ((k * fb.frame_size + i) % fb.ring_size)))
    else (fb', none)

/-- Feeding a list of (declared offset, payload) datagrams to the
assembler in arrival order, collecting every completed frame it emits,
in emission order. -/
def FrameBuffer.ingest_all (fb : FrameBuffer) :
    List (Nat × List Nat) → FrameBuffer × List (List Nat)
  | [] => (fb, [])
  | (o, p) :: rest =>
      let r := fb.add_msg o p
      let rr := r.1.ingest_all rest
      (rr.1, (match r.2 with | some f => [f] | none => []) ++ rr.2)

/-- Declared offsets of a gap-free in-order datagram burst: the first
payload starts at `start`, each next payload starts where the previous
one ended. -/
def with_offsets (start : Nat) : List (List Nat) → List (Nat × List Nat)
  | [] => []
  | p :: rest => (start, p) :: with_offsets (start + p.length) rest

/-- How `Radar.read` ends.

* `frame fd` — a frame was returned;
* `interrupted` — `KeyboardInterrupt` was caught, so the function falls
  off the `except` handler and returns `None`;
* `timedOutError` — `socket.timeout` propagated (only
  `KeyboardInterrupt` is caught);
* `exhausted` — trace ended while still waiting (model artifact). -/
inductive ReadResult where
  | frame (fd : FrameData)
  | interrupted
  | timedOutError
  | exhausted
deriving DecidableEq, Repr

/-- The `while True` loop of `Radar.read` (radar.py lines 200-222):
`second` is the flag of the same name; the first completed frame flips
it and is discarded, the second is returned, reshaped when
`self.reshape` is set (`rf` stands for `reshape_frame` applied with the
radar's parameters). -/
def read_go (rs : Bool) (rf : FrameData → FrameData) (second : Bool) :
    List Ev → List Action × ReadResult
  | [] => ([], .exhausted)
  | Ev.interrupt :: _ => ([], .interrupted)
  | Ev.timeout _ :: _ => ([], .timedOutError)
  | Ev.data newf fd _ :: rest =>
      if newf then
        if second then ([Action.ingest], .frame (if rs then rf fd else fd))
        else
          let r := read_go rs rf true rest
          (Action.ingest :: r.1, r.2)
      else
        let r := read_go rs rf second rest
        (Action.ingest :: r.1, r.2)

/-- Model of `Radar.read` (radar.py lines 192-222): flush the data socket, then
run the two-frame loop with `second = False`. -/
def radar_read (rs : Bool) (rf : FrameData → FrameData) (evs : List Ev) :
    List Action × ReadResult :=
  let r := read_go rs rf false evs
  (Action.flush :: r.1, r.2)

/-- The completed frames carried by a trace, in order, up to the first
abort event: the `frame_data` of each `new_frame = true` iteration. -/
def completed_frames_in : List Ev → List FrameData
  | [] => []
  | Ev.data true fd _ :: rest => fd :: completed_frames_in rest
  | Ev.data false _ _ :: rest => completed_frames_in rest
  | Ev.timeout _ :: _ => []
  | Ev.interrupt :: _ => []

/-- Whether an outcome is the `Completed` terminal state. -/
def Outcome.isCompleted : Outcome → Bool
  | .completed _ _ => true
  | _ => false

/-- Unfolding equation of the loop on an empty trace. -/
lemma go_nil (target : Nat) (frames : List FrameData) (cst : Option Time) :
    run_polling_go target [] frames cst =
      if target ≤ frames.length then (.completed frames cst, [Action.save])
      else (.exhausted frames cst, []) := by
  rw [run_polling_go.eq_def]

/-- Unfolding equation of the loop on an interrupt event. -/
lemma go_interrupt (target : Nat) (rest : List Ev) (frames : List FrameData)
    (cst : Option Time) :
    run_polling_go target (Ev.interrupt :: rest) frames cst =
      if target ≤ frames.length then (.completed frames cst, [Action.save])
      else (.interrupted frames cst, [Action.close]) := by
  rw [run_polling_go.eq_def]

/-- Unfolding equation of the loop on a receive timeout. -/
lemma go_timeout (target : Nat) (t : Time) (rest : List Ev)
    (frames : List FrameData) (cst : Option Time) :
    run_polling_go target (Ev.timeout t :: rest) frames cst =
      if target ≤ frames.length then (.completed frames cst, [Action.save])
      else (.timedOutError frames cst, []) := by
  rw [run_polling_go.eq_def]

/-- Unfolding equation of the loop on an `update_frame_buffer` return. -/
lemma go_data (target : Nat) (newf : Bool) (fd : FrameData) (t : Time)
    (rest : List Ev) (frames : List FrameData) (cst : Option Time) :
    run_polling_go target (Ev.data newf fd t :: rest) frames cst =
      if target ≤ frames.length then (.completed frames cst, [Action.save])
      else
        ((run_polling_go target rest (if newf then frames ++ [fd] else frames)
            (if newf && frames.isEmpty then some t else cst)).1,
          Action.ingest ::
            (run_polling_go target rest (if newf then frames ++ [fd] else frames)
              (if newf && frames.isEmpty then some t else cst)).2) := by
  rw [run_polling_go.eq_def]

/-- The collection loop never emits a `flush` action: flushing happens
only once, in `run_polling` itself, before the loop starts. -/
lemma flush_not_in_go (evs : List Ev) :
    ∀ (target : Nat) (frames : List FrameData) (cst : Option Time),
      Action.flush ∉ (run_polling_go target evs frames cst).2 := by
  induction evs with
  | nil =>
      intro target frames cst
      rw [go_nil]
      split <;> simp
  | cons e rest ih =>
      intro target frames cst
      cases e with
      | interrupt => rw [go_interrupt]; split <;> simp
      | timeout t => rw [go_timeout]; split <;> simp
      | data newf fd t =>
          rw [go_data]
          split
          · simp
          · simp only [List.mem_cons]
            rintro (h | h)
            · cases h
            · exact ih _ _ _ h

/-- If the loop starts with no more frames than the target, a completed
run ends with exactly `target` frames collected. -/
lemma go_completed_length (evs : List Ev) :
    ∀ (target : Nat) (frames : List FrameData) (cst : Option Time),
      frames.length ≤ target →
      ((run_polling_go target evs frames cst).1).isCompleted = true →
      ((run_polling_go target evs frames cst).1).frames.length = target := by
  induction evs with
  | nil =>
      intro target frames cst hle hc
      by_cases hge : target ≤ frames.length
      · simp [go_nil, hge, Outcome.frames]; omega
      · simp [go_nil, hge, Outcome.isCompleted] at hc
  | cons e rest ih =>
      intro target frames cst hle hc
      cases e with
      | interrupt =>
          by_cases hge : target ≤ frames.length
          · simp [go_interrupt, hge, Outcome.frames]; omega
          · simp [go_interrupt, hge, Outcome.isCompleted] at hc
      | timeout t =>
          by_cases hge : target ≤ frames.length
          · simp [go_timeout, hge, Outcome.frames]; omega
          · simp [go_timeout, hge, Outcome.isCompleted] at hc
      | data newf fd t =>
          by_cases hge : target ≤ frames.length
          · simp [go_data, hge, Outcome.frames]; omega
          · simp only [go_data, hge, if_false] at hc ⊢
            refine ih target _ _ ?_ hc
            by_cases hnf : newf <;> simp [hnf] <;> omega

/-- If the trace delivers at least `target` completed frames before any
abort event, the loop reaches the `Completed` state. -/
lemma go_completes (evs : List Ev) :
    ∀ (target : Nat) (frames : List FrameData) (cst : Option Time),
      target ≤ frames.length + (completed_frames_in evs).length →
      ((run_polling_go target evs frames cst).1).isCompleted = true := by
  induction evs with
  | nil =>
      intro target frames cst h
      simp [completed_frames_in] at h
      simp [go_nil, h, Outcome.isCompleted]
  | cons e rest ih =>
      intro target frames cst h
      cases e with
      | interrupt =>
          simp [completed_frames_in] at h
          simp [go_interrupt, h, Outcome.isCompleted]
      | timeout t =>
          simp [completed_frames_in] at h
          simp [go_timeout, h, Outcome.isCompleted]
      | data newf fd t =>
          by_cases hge : target ≤ frames.length
          · simp [go_data, hge, Outcome.isCompleted]
          · simp only [go_data, hge, if_false]
            refine ih target _ _ ?_
            by_cases hnf : newf <;>
              simp [hnf, completed_frames_in] at h ⊢ <;> omega

/-- Once at least one frame has been collected, the latched
`capture_start_time` never changes again. -/
lemma go_cst_frozen (evs : List Ev) :
    ∀ (target : Nat) (frames : List FrameData) (cst : Option Time),
      frames ≠ [] →
      ((run_polling_go target evs frames cst).1).cst = cst := by
  induction evs with
  | nil =>
      intro target frames cst hne
      rw [go_nil]
      split <;> simp [Outcome.cst]
  | cons e rest ih =>
      intro target frames cst hne
      cases e with
      | interrupt => rw [go_interrupt]; split <;> simp [Outcome.cst]
      | timeout t => rw [go_timeout]; split <;> simp [Outcome.cst]
      | data newf fd t =>
          rw [go_data]
          split
          · simp [Outcome.cst]
          · have hemp : frames.isEmpty = false := by
              cases frames with
              | nil => exact absurd rfl hne
              | cons a b => rfl
            have h2 : (if newf then frames ++ [fd] else frames) ≠ [] := by
              by_cases hnf : newf <;> simp [hnf, hne]
            simpa [hemp] using ih target _ _ h2

/-- Starting from the empty state with a positive target, the latched
`capture_start_time` of the final outcome is the wall clock of the first
completed frame in the trace. -/
lemma go_cst_first (evs : List Ev) :
    ∀ (target : Nat), 0 < target →
      ((run_polling_go target evs [] none).1).cst = first_frame_time evs := by
  induction evs with
  | nil =>
      intro target ht
      have ht2 : ¬ target = 0 := by omega
      simp [go_nil, ht2, Outcome.cst, first_frame_time]
  | cons e rest ih =>
      intro target ht
      have ht2 : ¬ target = 0 := by omega
      cases e with
      | interrupt => simp [go_interrupt, ht2, Outcome.cst, first_frame_time]
      | timeout t => simp [go_timeout, ht2, Outcome.cst, first_frame_time]
      | data newf fd t =>
          cases newf with
          | false =>
              have hstep := ih target ht
              simp only [go_data]
              simp only [first_frame_time]
              simpa [ht2] using hstep
          | true =>
              have hstep := go_cst_frozen rest target [fd] (some t) (by simp)
              simp only [go_data]
              simp only [first_frame_time]
              simpa [ht2] using hstep

/-- The latched `capture_start_time` of a whole `run_polling` session is
the wall clock of the first completed frame (positive target). -/
lemma run_polling_cst (target : Nat) (evs : List Ev) (h : 0 < target) :
    ((run_polling target evs).1).cst = first_frame_time evs := by
  simpa [run_polling] using go_cst_first evs target h

/-- Inversion for `saved_output`: an artifact is produced only from a
completed outcome with a nonempty frame list and a latched start time,
and it is exactly the result of `save_frames` at that state. -/
lemma saved_output_inv (p : RadarParams) (r : RadarIdent) (o : Outcome)
    (s : SaveResult) (h : saved_output p r o = some s) :
    o.isCompleted = true ∧ o.frames ≠ [] ∧ o.cst ≠ none ∧
      s = save_frames p r o.frames (o.cst.getD 0) := by
  cases o with
  | completed frames cst =>
      cases cst with
      | none => simp [saved_output] at h
      | some t =>
          by_cases he : frames.isEmpty
          · simp [saved_output, he] at h
          · simp [saved_output, he] at h
            refine ⟨rfl, ?_, by simp [Outcome.cst], ?_⟩
            · intro hnil
              simp only [Outcome.frames] at hnil
              exact he (by simp [hnil])
            · simp [Outcome.frames, Outcome.cst, h.symm]
  | interrupted frames cst => simp [saved_output] at h
  | timedOutError frames cst => simp [saved_output] at h
  | exhausted frames cst => simp [saved_output] at h

/-- Serializing the flattened sample stream frame-by-frame or all at
once gives the same bytes: concatenation order is preserved. -/
lemma raw_bytes_of_cons (f : FrameData) (rest : List FrameData) :
    raw_bytes_of (f :: rest) = frame_bytes f ++ raw_bytes_of rest := by
  simp [raw_bytes_of, frame_bytes]

/-- The .bin byte stream is the concatenation, in collection order, of
each frame's own serialization. -/
lemma raw_bytes_of_eq (frames : List FrameData) :
    raw_bytes_of frames = (frames.map frame_bytes).flatten := by
  induction frames with
  | nil => rfl
  | cons f rest ih => simp [raw_bytes_of_cons, ih]

/-- Each sample contributes exactly two bytes. -/
lemma frame_bytes_length (f : FrameData) :
    (frame_bytes f).length = 2 * f.length := by
  induction f with
  | nil => rfl
  | cons v rest ih =>
      show (int16le v ++ (rest.map int16le).flatten).length = _
      simp only [List.length_append]
      rw [show (int16le v).length = 2 from rfl]
      simp only [frame_bytes] at ih
      rw [ih]
      simp [Nat.mul_succ]
      omega

/-- Total size of the .bin stream when every frame serializes to
`fsb` bytes. -/
lemma raw_bytes_of_length (frames : List FrameData) (fsb : Nat)
    (h : ∀ f ∈ frames, 2 * f.length = fsb) :
    (raw_bytes_of frames).length = frames.length * fsb := by
  induction frames with
  | nil => simp [raw_bytes_of]
  | cons f rest ih =>
      rw [raw_bytes_of_cons]
      simp only [List.length_append, frame_bytes_length]
      rw [h f (by simp), ih (fun g hg => h g (by simp [hg]))]
      simp [Nat.succ_mul]
      omega

/-- With the `second` flag already set, the loop of `Radar.read` returns
the next completed frame in the trace. -/
lemma read_go_second (rs : Bool) (rf : FrameData → FrameData) :
    ∀ (evs : List Ev) (f : FrameData) (rest : List FrameData),
      completed_frames_in evs = f :: rest →
      (read_go rs rf true evs).2 = ReadResult.frame (if rs then rf f else f) := by
  intro evs
  induction evs with
  | nil => intro f rest h; simp [completed_frames_in] at h
  | cons e tail ih =>
      intro f rest h
      cases e with
      | interrupt => simp [completed_frames_in] at h
      | timeout t => simp [completed_frames_in] at h
      | data newf fd t =>
          cases newf with
          | true =>
              simp only [completed_frames_in] at h
              obtain ⟨h1, h2⟩ := List.cons.injEq .. ▸ h
              subst h1
              simp [read_go]
          | false =>
              simp only [completed_frames_in] at h
              simpa [read_go] using ih f rest h

/-- With the `second` flag still clear, the loop of `Radar.read` skips
the first completed frame and returns the second. -/
lemma read_go_first (rs : Bool) (rf : FrameData → FrameData) :
    ∀ (evs : List Ev) (f1 f2 : FrameData) (rest : List FrameData),
      completed_frames_in evs = f1 :: f2 :: rest →
      (read_go rs rf false evs).2 = ReadResult.frame (if rs then rf f2 else f2) := by
  intro evs
  induction evs with
  | nil => intro f1 f2 rest h; simp [completed_frames_in] at h
  | cons e tail ih =>
      intro f1 f2 rest h
      cases e with
      | interrupt => simp [completed_frames_in] at h
      | timeout t => simp [completed_frames_in] at h
      | data newf fd t =>
          cases newf with
          | true =>
              simp only [completed_frames_in] at h
              obtain ⟨h1, h2⟩ := List.cons.injEq .. ▸ h
              simpa [read_go] using read_go_second rs rf tail f2 rest h2
          | false =>
              simp only [completed_frames_in] at h
              simpa [read_go] using ih f1 f2 rest h

/-- Pointwise description of a ring write that does not wrap: positions
inside the payload's range read back the payload byte, all others are
unchanged. -/
lemma write_ring_eval (ringSize : Nat) :
    ∀ (p : List Nat) (o : Nat) (ring : Nat → Nat) (i : Nat),
      o + p.length ≤ ringSize → i < ringSize →
      write_ring ringSize ring o p i =
        if o ≤ i ∧ i < o + p.length then p.getD (i - o) 0 else ring i := by
  intro p
  induction p with
  | nil =>
      intro o ring i h1 h2
      rw [write_ring, if_neg (by simp)]
  | cons b rest ih =>
      intro o ring i h1 h2
      have hlen : o + 1 + rest.length ≤ ringSize := by
        simp only [List.length_cons] at h1; omega
      have ho : o < ringSize := by
        simp only [List.length_cons] at h1; omega
      rw [write_ring, ih (o + 1) _ i hlen h2, Nat.mod_eq_of_lt ho]
      by_cases hio : i = o
      · subst hio
        rw [if_neg (by omega), if_pos
          (by simp only [List.length_cons]; omega : i ≤ i ∧ i < i + (b :: rest).length)]
        simp [Function.update_apply]
      · by_cases hc : o + 1 ≤ i ∧ i < o + 1 + rest.length
        · have hidx : i - o = (i - (o + 1)) + 1 := by omega
          rw [if_pos hc, if_pos
            (by simp only [List.length_cons]; omega : o ≤ i ∧ i < o + (b :: rest).length)]
          rw [hidx, List.getD_cons_succ]
        · rw [if_neg hc, if_neg
            (by simp only [List.length_cons]; omega : ¬ (o ≤ i ∧ i < o + (b :: rest).length))]
          rw [Function.update_apply, if_neg hio]

/-- Reading back a list-sized window through a pointwise description. -/
lemma range_map_eq (l : List Nat) (f : Nat → Nat)
    (h : ∀ i, i < l.length → f i = l.getD i 0) :
    (List.range l.length).map f = l := by
  apply List.ext_getElem
  · simp
  · intro i h1 h2
    simp only [List.getElem_map, List.getElem_range]
    rw [h i h2, List.getD_eq_getElem l 0 h2]

/-- Reading back an `n`-sized window through a pointwise description. -/
lemma range_map_eq_of_len (n : Nat) (l : List Nat) (f : Nat → Nat)
    (hn : l.length = n) (h : ∀ i, i < n → f i = l.getD i 0) :
    (List.range n).map f = l := by
  subst hn
  exact range_map_eq l f h

/-- Unfolding equation: ingesting a nonempty datagram list. -/
lemma ingest_all_cons (fb : FrameBuffer) (o : Nat) (p : List Nat)
    (rest : List (Nat × List Nat)) :
    fb.ingest_all ((o, p) :: rest) =
      (((fb.add_msg o p).1.ingest_all rest).1,
        (match (fb.add_msg o p).2 with | some f => [f] | none => []) ++
          ((fb.add_msg o p).1.ingest_all rest).2) := by
  rw [FrameBuffer.ingest_all]

/-- An `add_msg` that is not stale and does not cross a frame boundary:
the payload is written, the cursor advances, no frame is emitted. -/
lemma add_msg_nocross (fb : FrameBuffer) (offset : Nat) (payload : List Nat)
    (hst : ¬ (offset + fb.ring_size < fb.cursor))
    (hnc : ¬ (fb.cursor / fb.frame_size <
      (max fb.cursor (offset + payload.length)) / fb.frame_size)) :
    fb.add_msg offset payload =
      ({ fb with
         ring := write_ring fb.ring_size fb.ring offset payload,
         cursor := max fb.cursor (offset + payload.length) }, none) := by
  simp [FrameBuffer.add_msg, hst, hnc]

/-- An `add_msg` that is not stale and crosses a frame boundary: the
window just closed is copied out of the updated ring. -/
lemma add_msg_cross (fb : FrameBuffer) (offset : Nat) (payload : List Nat)
    (hst : ¬ (offset + fb.ring_size < fb.cursor))
    (hcr : fb.cursor / fb.frame_size <
      (max fb.cursor (offset + payload.length)) / fb.frame_size) :
    fb.add_msg offset payload =
      ({ fb with
         ring := write_ring fb.ring_size fb.ring offset payload,
         cursor := max fb.cursor (offset + payload.length) },
       some ((List.range fb.frame_size).map fun i =>
         write_ring fb.ring_size fb.ring offset payload
           ((((max fb.cursor (offset + payload.length)) / fb.frame_size - 1) *
             fb.frame_size + i) % fb.ring_size))) := by
  simp [FrameBuffer.add_msg, hst, hcr]

/-- Main reassembly lemma: a gap-free in-order burst of nonempty
datagrams that exactly finishes the current frame window produces
exactly one completed frame, equal to `prev ++ payloads` where `prev`
is the part of the window already in the ring. -/
lemma ingest_inorder (fs : Nat) (hfs : 0 < fs) :
    ∀ (ds : List (List Nat)) (prev : List Nat) (fb : FrameBuffer),
      fb.frame_size = fs → fb.ring_size = 2 * fs →
      fb.cursor = prev.length →
      (∀ i, i < prev.length → fb.ring i = prev.getD i 0) →
      prev.length + (ds.flatten).length = fs →
      ds ≠ [] → (∀ p ∈ ds, p ≠ []) →
      (fb.ingest_all (with_offsets prev.length ds)).2 = [prev ++ ds.flatten] := by
  intro ds
  induction ds with
  | nil => intro prev fb _ _ _ _ _ hne _; exact absurd rfl hne
  | cons p rest ih =>
      intro prev fb hf hr hc hring hcov hne hnonempty
      have hp : p ≠ [] := hnonempty p (by simp)
      have hplen : 0 < p.length := List.length_pos.mpr hp
      have hst : ¬ (prev.length + fb.ring_size < fb.cursor) := by
        rw [hc]; omega
      have hmax : max fb.cursor (prev.length + p.length) =
          prev.length + p.length := by
        rw [hc]; omega
      rw [with_offsets, ingest_all_cons]
      cases rest with
      | nil =>
          have hcov2 : prev.length + p.length = fs := by
            simpa using hcov
          have hprevlt : prev.length < fs := by omega
          have hcr : fb.cursor / fb.frame_size <
              (max fb.cursor (prev.length + p.length)) / fb.frame_size := by
            rw [hmax, hc, hf, hcov2, Nat.div_self hfs, Nat.div_eq_of_lt hprevlt]
            omega
          rw [add_msg_cross fb prev.length p hst hcr]
          rw [with_offsets, FrameBuffer.ingest_all]
          have hframe :
              (List.range fb.frame_size).map (fun i =>
                write_ring fb.ring_size fb.ring prev.length p
                  ((((max fb.cursor (prev.length + p.length)) / fb.frame_size - 1) *
                    fb.frame_size + i) % fb.ring_size)) = prev ++ p := by
            rw [hmax, hf, hr, hcov2, Nat.div_self hfs]
            apply range_map_eq_of_len fs (prev ++ p)
            · simp only [List.length_append]; omega
            · intro i hi
              rw [(by omega : (1 - 1) * fs + i = i),
                Nat.mod_eq_of_lt (by omega : i < 2 * fs)]
              rw [write_ring_eval (2 * fs) p prev.length fb.ring i
                (by omega) (by omega)]
              by_cases hcase : prev.length ≤ i
              · rw [if_pos ⟨hcase, by omega⟩,
                  List.getD_append_right prev p 0 i hcase]
              · rw [if_neg (by omega), hring i (by omega),
                  List.getD_append prev p 0 i (by omega)]
          simp only [hframe]
          simp
      | cons q rest2 =>
          have hq : q ≠ [] := hnonempty q (by simp)
          have hqlen : 0 < (q :: rest2).flatten.length := by
            have hql : 0 < q.length := List.length_pos.mpr hq
            simp only [List.flatten_cons, List.length_append]
            omega
          have hcov2 : prev.length + p.length + (q :: rest2).flatten.length = fs := by
            simp only [List.flatten_cons, List.length_append] at hcov ⊢
            omega
          have hlt : prev.length + p.length < fs := by omega
          have hnc : ¬ (fb.cursor / fb.frame_size <
              (max fb.cursor (prev.length + p.length)) / fb.frame_size) := by
            rw [hmax, hc, hf, Nat.div_eq_of_lt hlt,
              Nat.div_eq_of_lt (by omega : prev.length < fs)]
            omega
          rw [add_msg_nocross fb prev.length p hst hnc]
          have hstep := ih (prev ++ p)
            { fb with
              ring := write_ring fb.ring_size fb.ring prev.length p,
              cursor := max fb.cursor (prev.length + p.length) }
            hf hr
            (by
              show max fb.cursor (prev.length + p.length) = (prev ++ p).length
              rw [hmax]; simp [List.length_append])
            (by
              intro i hi
              show write_ring fb.ring_size fb.ring prev.length p i =
                (prev ++ p).getD i 0
              simp only [List.length_append] at hi
              rw [hr]
              rw [write_ring_eval (2 * fs) p prev.length fb.ring i
                (by omega) (by omega)]
              by_cases hcase : prev.length ≤ i
              · rw [if_pos ⟨hcase, by omega⟩,
                  List.getD_append_right prev p 0 i hcase]
              · rw [if_neg (by omega), hring i (by omega),
                  List.getD_append prev p 0 i (by omega)])
            (by simp only [List.length_append]; omega)
            (by simp) (fun x hx => hnonempty x (by simp [hx]))
          simp only [List.length_append] at hstep
          simp only [hstep]
          simp

/-- Parameters of a small concrete radar configuration, used to
instantiate universally quantified theorems at concrete inputs. -/
def sample_params : RadarParams := ⟨2, 64, 16, 4, 2, 4096, 100, 60⟩

/-- Dataset identity of a concrete session, used to instantiate
universally quantified theorems at concrete inputs. -/
def sample_ident : RadarIdent := ⟨"data", "001", "screw_driver", (0, 45, 90), 1, true⟩

/-- A concrete trace that completes a two-frame session. -/
def evs_two_frames : List Ev := [Ev.data true [1] 10, Ev.data true [2] 20]

/-- C1: the claim says a receive timeout during collection is never
fatal and only the stall watchdog may abort.  In the code,
`Radar.run_polling` catches only `KeyboardInterrupt` (radar.py lines
64-80), so the `socket.timeout` deliberately re-raised by
`DCAPub.update_frame_buffer` escapes the loop at once: here a timeout
arriving 0.5 s after a frame (well under any plausible stall bound —
no stall-timeout variable exists in `radar.py` at all) kills the
session as an error, with nothing saved. -/
theorem run_polling_timeout_is_fatal :
    (run_polling 3 [Ev.data true [7] 1000000, Ev.timeout 1500000]).1 =
      Outcome.timedOutError [[7]] (some 1000000) ∧
    saved_output sample_params sample_ident
      (run_polling 3 [Ev.data true [7] 1000000, Ev.timeout 1500000]).1 = none := by
  decide

/-- C2 counterexample: a session aborted by an operator interrupt after
one collected frame discards that frame — the `KeyboardInterrupt`
handler of `run_polling` only closes the socket, it never calls
`save_frames`, contradicting the claim that a non-empty `framesCollected`
is always persisted on abort. -/
theorem run_polling_interrupt_discards_frames :
    (run_polling 3 [Ev.data true [5] 42, Ev.interrupt]).1 =
      Outcome.interrupted [[5]] (some 42) ∧
    ((run_polling 3 [Ev.data true [5] 42, Ev.interrupt]).1).frames ≠ [] ∧
    saved_output sample_params sample_ident
      (run_polling 3 [Ev.data true [5] 42, Ev.interrupt]).1 = none := by
  decide

/-- C2 (amended): frames are persisted exactly when the session runs to
completion with `targetFrameCount` frames; any abort (operator
interrupt or propagated timeout) writes no output and discards the
collected frames. -/
theorem saved_output_only_on_completion (p : RadarParams) (r : RadarIdent)
    (target : Nat) (evs : List Ev) (s : SaveResult)
    (h : saved_output p r (run_polling target evs).1 = some s) :
    ((run_polling target evs).1).isCompleted = true ∧
    ((run_polling target evs).1).frames ≠ [] ∧
    ((run_polling target evs).1).frames.length = target ∧
    s = save_frames p r ((run_polling target evs).1).frames
      (((run_polling target evs).1).cst.getD 0) := by
  obtain ⟨h1, h2, _, h4⟩ := saved_output_inv p r _ s h
  exact ⟨h1, h2, go_completed_length evs target [] none (by simp) h1, h4⟩

/-- Witness for C2's amended theorem at a concrete completed session. -/
theorem saved_output_only_on_completion_witness :
    ((run_polling 2 evs_two_frames).1).isCompleted = true ∧
    ((run_polling 2 evs_two_frames).1).frames ≠ [] ∧
    ((run_polling 2 evs_two_frames).1).frames.length = 2 ∧
    save_frames sample_params sample_ident [[1], [2]] 10 =
      save_frames sample_params sample_ident
        ((run_polling 2 evs_two_frames).1).frames
        (((run_polling 2 evs_two_frames).1).cst.getD 0) :=
  saved_output_only_on_completion sample_params sample_ident 2 evs_two_frames
    (save_frames sample_params sample_ident [[1], [2]] 10) rfl

/-- C3: for any session with a positive frame target, the latched
`capture_start_time` at the end of the run equals the wall clock of the
first completed frame of the trace — set exactly once, on the first
frame, never overwritten by later frames. -/
theorem capture_start_time_latched_once (target : Nat) (evs : List Ev)
    (h : 0 < target) :
    ((run_polling target evs).1).cst = first_frame_time evs :=
  run_polling_cst target evs h

/-- Witness for C3 on a trace whose first and later frames carry
different wall clocks. -/
theorem capture_start_time_latched_once_witness :
    0 < 2 ∧ ((run_polling 2 [Ev.data false [0] 1, Ev.data true [3] 7,
      Ev.data true [4] 9, Ev.interrupt]).1).cst =
      first_frame_time [Ev.data false [0] 1, Ev.data true [3] 7,
        Ev.data true [4] 9, Ev.interrupt] :=
  ⟨by decide, capture_start_time_latched_once 2 _ (by decide)⟩

/-- C4: the collecting loop ends in `Completed` exactly at the target
frame count: a completed run has collected exactly `targetFrameCount`
frames, and a trace that delivers at least that many completed frames
(before any abort event) does complete. -/
theorem collecting_completes_at_target (target : Nat) (evs : List Ev) :
    (((run_polling target evs).1).isCompleted = true →
      ((run_polling target evs).1).frames.length = target) ∧
    (target ≤ (completed_frames_in evs).length →
      ((run_polling target evs).1).isCompleted = true) := by
  constructor
  · intro h
    exact go_completed_length evs target [] none (by simp) h
  · intro h
    exact go_completes evs target [] none (by simpa using h)

/-- Witness for C4 on a trace with exactly two completed frames. -/
theorem collecting_completes_at_target_witness :
    ((run_polling 2 evs_two_frames).1).isCompleted = true ∧
    ((run_polling 2 evs_two_frames).1).frames.length = 2 :=
  ⟨(collecting_completes_at_target 2 evs_two_frames).2 (by decide),
   (collecting_completes_at_target 2 evs_two_frames).1 (by decide)⟩

/-- C5: the sink serializes a non-empty frame list by concatenating the
frames in collection order, each sample becoming two little-endian
bytes, with no header: the byte stream is the frame-by-frame
serialization joined in order, and its total size is exactly
`frameCount * frameSizeBytes` when every frame holds
`frameSizeBytes / 2` samples. -/
theorem save_frames_concat_order_and_size (p : RadarParams) (r : RadarIdent)
    (frames : List FrameData) (t : Time) (fsb : Nat)
    (_h1 : frames ≠ []) (h2 : ∀ f ∈ frames, 2 * f.length = fsb) :
    (save_frames p r frames t).rawBytes = (frames.map frame_bytes).flatten ∧
    (save_frames p r frames t).rawBytes.length = frames.length * fsb := by
  constructor
  · exact raw_bytes_of_eq frames
  · exact raw_bytes_of_length frames fsb h2

/-- Witness for C5 on two frames of two samples each (4 bytes per
frame, 8 bytes total). -/
theorem save_frames_concat_order_and_size_witness :
    (save_frames sample_params sample_ident [[1, 2], [3, 4]] 9).rawBytes =
      (([[1, 2], [3, 4]] : List FrameData).map frame_bytes).flatten ∧
    (save_frames sample_params sample_ident [[1, 2], [3, 4]] 9).rawBytes.length =
      2 * 4 :=
  save_frames_concat_order_and_size sample_params sample_ident
    [[1, 2], [3, 4]] 9 4 (by decide) (by decide)

/-- C6: the metadata record of a persisted session carries as
`capture_start_time` exactly the latched first-frame wall clock (not a
save-time instant), and its `timestamp_compact` is computed from
`capture_start_time` alone. -/
theorem metadata_capture_start_time_correct (p : RadarParams) (r : RadarIdent)
    (target : Nat) (evs : List Ev) (s : SaveResult) (h1 : 0 < target)
    (h2 : saved_output p r (run_polling target evs).1 = some s) :
    first_frame_time evs = some s.metadata.capture_start_time ∧
    s.metadata.timestamp_compact =
      timestamp_compact_of s.metadata.capture_start_time := by
  obtain ⟨hcomp, hne, hcst, hs⟩ := saved_output_inv p r _ s h2
  have hfft := run_polling_cst target evs h1
  rcases hx : ((run_polling target evs).1).cst with _ | t
  · exact absurd hx hcst
  · constructor
    · rw [← hfft, hx, hs, hx]
      rfl
    · rw [hs]
      rfl

/-- Witness for C6 on a one-frame session latched at instant 5000000. -/
theorem metadata_capture_start_time_correct_witness :
    first_frame_time [Ev.data true [3] 5000000] =
      some (save_frames sample_params sample_ident
        [[3]] 5000000).metadata.capture_start_time ∧
    (save_frames sample_params sample_ident [[3]] 5000000).metadata.timestamp_compact =
      timestamp_compact_of (save_frames sample_params sample_ident
        [[3]] 5000000).metadata.capture_start_time :=
  metadata_capture_start_time_correct sample_params sample_ident 1
    [Ev.data true [3] 5000000]
    (save_frames sample_params sample_ident [[3]] 5000000) (by decide) rfl

/-- C7: every session flushes the data socket exactly once, as its very
first side effect, before any datagram is received and ingested. -/
theorem flush_once_before_collecting (target : Nat) (evs : List Ev) :
    ((run_polling target evs).2).head? = some Action.flush ∧
    ((run_polling target evs).2).count Action.flush = 1 := by
  constructor
  · rfl
  · show (Action.flush :: (run_polling_go target evs [] none).2).count
      Action.flush = 1
    rw [List.count_cons]
    simp [List.count_eq_zero.mpr (flush_not_in_go evs target [] none)]

/-- C8: the assembler is built with a ring of exactly
`2 * frameSizeBytes` bytes (dcapub.py line 80), and feeding it an
in-order gap-free burst of nonempty datagrams covering exactly one
frame emits exactly one completed frame equal to the concatenation of
the payloads in offset order. -/
theorem assembler_inorder_emits_one_frame (p : RadarParams)
    (ds : List (List Nat)) (h1 : 0 < p.frame_size)
    (h2 : ∀ q ∈ ds, q ≠ []) (h3 : (ds.flatten).length = p.frame_size) :
    (dcapub_frame_buffer p).ring_size = 2 * p.frame_size ∧
    ((dcapub_frame_buffer p).ingest_all (with_offsets 0 ds)).2 =
      [ds.flatten] := by
  refine ⟨rfl, ?_⟩
  have hne : ds ≠ [] := by
    intro hd
    subst hd
    simp at h3
    omega
  have hmain := ingest_inorder p.frame_size h1 ds [] (dcapub_frame_buffer p)
    rfl rfl rfl (by intro i hi; simp at hi) (by simpa using h3) hne h2
  simpa using hmain

/-- Witness for C8: frame size 4, two datagrams of two bytes each. -/
theorem assembler_inorder_emits_one_frame_witness :
    (dcapub_frame_buffer ⟨2, 1, 1, 1, 1, 4, 0, 0⟩).ring_size = 2 * 4 ∧
    ((dcapub_frame_buffer ⟨2, 1, 1, 1, 1, 4, 0, 0⟩).ingest_all
      (with_offsets 0 [[1, 2], [3, 4]])).2 = [[1, 2, 3, 4]] := by
  have h := assembler_inorder_emits_one_frame ⟨2, 1, 1, 1, 1, 4, 0, 0⟩
    [[1, 2], [3, 4]] (by decide) (by decide) (by decide)
  exact ⟨h.1, by simpa using h.2⟩

/-- C9: `Radar.read` flushes the data socket first, then discards the
first frame that completes after the flush and returns only the second,
reshaped exactly when the reshape flag is set. -/
theorem radar_read_returns_second_frame (rs : Bool)
    (rf : FrameData → FrameData) (evs : List Ev) (f1 f2 : FrameData)
    (rest : List FrameData)
    (h : completed_frames_in evs = f1 :: f2 :: rest) :
    ((radar_read rs rf evs).1).head? = some Action.flush ∧
    (radar_read rs rf evs).2 = ReadResult.frame (if rs then rf f2 else f2) := by
  constructor
  · rfl
  · exact read_go_first rs rf evs f1 f2 rest h

/-- Witness for C9: two completed frames, reshape enabled, the second
frame is returned reshaped. -/
theorem radar_read_returns_second_frame_witness :
    ((radar_read true (fun l => 0 :: l)
      [Ev.data true [1] 5, Ev.data true [2] 6]).1).head? = some Action.flush ∧
    (radar_read true (fun l => 0 :: l)
      [Ev.data true [1] 5, Ev.data true [2] 6]).2 =
      ReadResult.frame (if true then (fun l => (0 : Int) :: l) [2] else [2]) :=
  radar_read_returns_second_frame true (fun l => 0 :: l)
    [Ev.data true [1] 5, Ev.data true [2] 6] [1] [2] [] (by decide)

/-- C10: the .bin filename embeds `timestamp_compact`, so sessions with
different compact stamps write different data files, while the metadata
path is the fixed `metadata.json` in the parent of `radar_data`,
independent of the timestamp — a later session for the same identity
overwrites the metadata but not the earlier .bin file. -/
theorem bin_name_timestamped_metadata_fixed (p : RadarParams)
    (r : RadarIdent) (frames frames2 : List FrameData) (t1 t2 : Time)
    (h : timestamp_compact_of t1 ≠ timestamp_compact_of t2) :
    (save_frames p r frames t1).bin_file ≠
      (save_frames p r frames2 t2).bin_file ∧
    (save_frames p r frames t1).meta_file =
      (save_frames p r frames2 t2).meta_file := by
  refine ⟨?_, rfl⟩
  show bin_filename r (timestamp_compact_of t1) ≠
    bin_filename r (timestamp_compact_of t2)
  unfold bin_filename
  intro hc
  apply h
  have hd := congrArg String.data hc
  simp only [String.data_append] at hd
  exact String.ext (List.append_cancel_left (List.append_cancel_right hd))

/-- Witness for C10 at instants 0 and 1000000 (compact stamps "0" and
"1"). -/
theorem bin_name_timestamped_metadata_fixed_witness :
    timestamp_compact_of 0 ≠ timestamp_compact_of 1000000 ∧
    (save_frames sample_params sample_ident [[1]] 0).bin_file ≠
      (save_frames sample_params sample_ident [[1]] 1000000).bin_file ∧
    (save_frames sample_params sample_ident [[1]] 0).meta_file =
      (save_frames sample_params sample_ident [[1]] 1000000).meta_file := by
  have h : timestamp_compact_of 0 ≠ timestamp_compact_of 1000000 := by decide
  have h2 := bin_name_timestamped_metadata_fixed sample_params sample_ident
    [[1]] [[1]] 0 1000000 h
  exact ⟨h, h2.1, h2.2⟩

end MMR
